import Mathlib

/-!
Shallow embedding of the recipe-converter field-extraction pipeline
(recipe-converter.js) and proofs about its normalization, extraction and
batch-orchestration behaviour.

JavaScript conventions are modelled explicitly:
* an attribute / object field that may be `undefined`/`null` is an
  `Option String`; JS truthiness of such a value ("" and null/undefined are
  falsy) is `jsTruthyS`;
* `a || b` on strings is `jsOrS`; on numbers, 0 is falsy (`jsOrQ`);
* machine numbers on the paths the claims touch are naturals or rationals
  (`Date.now()/1000` and `parseInt(ms)/1000` are exact divisions of integers
  by 1000, modelled in ℚ; the double rounding error is irrelevant to every
  statement below, which only needs "the quotient is / is not an integer");
* the regexes of the source are deterministic scans (no backtracking can
  change their result, argued in the comment of each scanner), implemented as
  structural recursion over the character list.
-/

/-- `s.startsWith(p)`, computed on the character lists (so that concrete
instances evaluate by `decide`). -/
def strStartsWith (s p : String) : Bool :=
  p.toList.isPrefixOf s.toList

/-- Truthiness of a possibly-absent JS string: `undefined`, `null` and `""`
are falsy. -/
def jsTruthyS (o : Option String) : Bool :=
  match o with
  | none => false
  | some s => s ≠ ""

/-- `a || ""` for a possibly-absent JS string. -/
def jsOrS (o : Option String) : String :=
  if jsTruthyS o then o.getD ("") else ""

/-- `a || b` for a JS number `a` (0 is falsy) with fallback `b`. -/
def jsOrQ (o : Option ℚ) (dflt : ℚ) : ℚ :=
  match o with
  | none => dflt
  | some q => if q = 0 then dflt else q

/-- The characters the JS `\s` class matches on the inputs at hand (ASCII
whitespace; the Unicode spaces never occur in the strings the theorems
evaluate). -/
def jsWhitespace (c : Char) : Bool :=
  c == ' ' || c == '\t' || c == '\n' || c == '\r' || c == '\x0b' || c == '\x0c'

/-- Numeric value of a decimal digit character. -/
def digitVal (c : Char) : Nat := c.toNat - 48

/-- `parseInt` on a nonempty run of decimal digits. -/
def parseIntDigits (l : List Char) : Nat :=
  l.foldl (fun acc c => acc * 10 + digitVal c) 0

/-- Does the remainder of the input start with the literal `minute`,
case-insensitively?  (The regex `minutes?` needs only the stem `minute`; the
optional `s` cannot affect whether the match succeeds.) -/
def minuteStemHere (l : List Char) : Bool :=
  ("minute").toList.isPrefixOf ((l.take 6).map Char.toLower)

/-- The scan of `timeStr.match(/(\d+)\s*minutes?/i)`: the regex engine tries
each start position left to right; at a digit, `\d+` greedily takes the
maximal digit run (giving digits back never helps: the character after a
shorter run is a digit, which neither `\s` nor `m` matches), `\s*` the maximal
whitespace run (same argument), then the literal stem must follow.  Returns
the captured digits of the first such position as a number. -/
def minuteScan : List Char → Option Nat
  | [] => none
  | c :: rest =>
    if c.isDigit then
      let run := (c :: rest).takeWhile Char.isDigit
      let after := ((c :: rest).dropWhile Char.isDigit).dropWhile jsWhitespace
      if minuteStemHere after then some (parseIntDigits run)
      else minuteScan rest
    else minuteScan rest

/-- `parseTimeToMinutes(timeStr)` (source lines 355–359): 0 for an absent or
empty argument, else the first "N minute(s)" number in the string, else 0. -/
def parseTimeToMinutes (timeStr : Option String) : Nat :=
  match timeStr with
  | none => 0
  | some s => if s = "" then 0 else (minuteScan s.toList).getD 0

/-- The scan of `dateStr.match(/\((\d+)\)/)` (source line 364): at each `(`
take the maximal digit run (shrinking it never helps: a shorter run is
followed by a digit, not `)`) and require a closing `)`. -/
def parenScan : List Char → Option Nat
  | [] => none
  | c :: rest =>
    if c = '(' then
      let run := rest.takeWhile Char.isDigit
      if run ≠ [] ∧ (rest.dropWhile Char.isDigit).head? = some ')' then
        some (parseIntDigits run)
      else parenScan rest
    else parenScan rest

/-- `parseYMLDate(dateStr)` (source lines 361–369): null for an absent/empty
argument; else scan for `(<digits>)`, interpret the digits as milliseconds and
divide by 1000 (JS `/` — NOT integer division); null when the scan fails. -/
def parseYMLDate (dateStr : Option String) : Option ℚ :=
  match dateStr with
  | none => none
  | some s =>
    if s = "" then none
    else
      match parenScan s.toList with
      | some n => some ((n : ℚ) / 1000)
      | none => none

/-- `toProperCase(str)` (source lines 12–15): first character uppercased, all
remaining characters lowercased; empty/falsy input gives `""`. -/
def toProperCase (str : String) : String :=
  match str.toList with
  | [] => ""
  | c :: rest => String.mk (Char.toUpper c :: rest.map Char.toLower)

/-- `formatMinutesToHM(minutes)` (source lines 17–25).  The argument is a
natural: on every call site it is a sum of `parseTimeToMinutes` results, so
the `isNaN` guard and `parseInt` re-parse of the source are identities, and
`!minutes` is exactly `minutes = 0`. -/
def formatMinutesToHM (minutes : Nat) : String :=
  if minutes = 0 then ""
  else if minutes < 60 then toString minutes ++ "m"
  else
    let h := minutes / 60
    let m := minutes % 60
    if m = 0 then toString h ++ "h" else toString h ++ "h " ++ toString m ++ "m"

/-- The two capture groups of `PT(?:(\d+)H)?(?:(\d+)M)?` matched at the start
of a `PT`-prefixed string, with `parseInt(group || 0)` applied: each optional
group takes the maximal digit run if and only if the unit letter follows it
(backtracking inside a run never helps: a shorter run is followed by a digit,
not `H`/`M`).  An absent group contributes 0. -/
def ptParse (duration : String) : Nat × Nat :=
  let rest := duration.toList.drop 2
  let run1 := rest.takeWhile Char.isDigit
  let after1 := rest.dropWhile Char.isDigit
  let hoursAndRest : Nat × List Char :=
    if run1 ≠ [] ∧ after1.head? = some 'H' then (parseIntDigits run1, after1.tail)
    else (0, rest)
  let run2 := hoursAndRest.2.takeWhile Char.isDigit
  let after2 := hoursAndRest.2.dropWhile Char.isDigit
  let minutes :=
    if run2 ≠ [] ∧ after2.head? = some 'M' then parseIntDigits run2 else 0
  (hoursAndRest.1, minutes)

/-- `formatDuration(duration)` (source lines 486–503).  For a `PT`-prefixed
string the regex always matches (both groups are optional), so `if (match)`
is always taken there; when both components are zero none of the three
format branches fires and control falls through to `return duration`. -/
def formatDuration (duration : String) : String :=
  if strStartsWith duration ("PT") then
    let hm := ptParse duration
    if hm.1 ≠ 0 ∧ hm.2 ≠ 0 then toString hm.1 ++ "h " ++ toString hm.2 ++ "m"
    else if hm.1 ≠ 0 then toString hm.1 ++ "h"
    else if hm.2 ≠ 0 then toString hm.2 ++ "m"
    else duration
  else duration

/-- The JSON-LD `image` value: a scalar string or an array of strings
(`extractImages` branches on `Array.isArray`). -/
inductive ImageVal
  | one (s : String)
  | many (l : List String)

/-- The fields of the parsed JSON-LD structured-data object that the claims
under study read.  Each is possibly absent. -/
structure StructuredData where
  name : Option String
  image : Option ImageVal
  prepTime : Option String
  cookTime : Option String

/-- An `[itemprop="image"], img` element as `extractImages` sees it: its two
attributes.  `getAttribute` returns null for an absent attribute; null and
`""` behave identically in every use below (both are falsy), so an absent
attribute is modelled as `""`. -/
structure ImgElem where
  src : String
  content : String

/-- The parsed document, abstracted to the query results the modelled
extractors read: the trimmed text content of the first element matching each
selector (absent when no element matches), and the list of image elements. -/
structure DomDoc where
  nameText : Option String
  prepText : Option String
  cookText : Option String
  imgElems : List ImgElem

/-- Truthiness of the JSON-LD `image` value: a string is truthy iff nonempty;
an array is always truthy (even `[]`). -/
def imageTruthy : Option ImageVal → Bool
  | none => false
  | some (.one s) => s ≠ ""
  | some (.many _) => true

/-- `extractTitle(structuredData, document)` (source lines 144–150). -/
def extractTitle (sd : Option StructuredData) (doc : DomDoc) : String :=
  match sd with
  | some s => if jsTruthyS s.name then s.name.getD ("") else doc.nameText.getD ("")
  | none => doc.nameText.getD ("")

/-- `extractPrepTime(structuredData, document)` (source lines 212–218): a
truthy structured-data `prepTime` goes through `formatDuration`; otherwise the
trimmed text of the `[itemprop="prepTime"]` element, or `""`. -/
def extractPrepTime (sd : Option StructuredData) (doc : DomDoc) : String :=
  match sd with
  | some s =>
    if jsTruthyS s.prepTime then formatDuration (s.prepTime.getD (""))
    else doc.prepText.getD ("")
  | none => doc.prepText.getD ("")

/-- `extractCookTime(structuredData, document)` (source lines 220–226). -/
def extractCookTime (sd : Option StructuredData) (doc : DomDoc) : String :=
  match sd with
  | some s =>
    if jsTruthyS s.cookTime then formatDuration (s.cookTime.getD (""))
    else doc.cookText.getD ("")
  | none => doc.cookText.getD ("")

/-- The initial `images` list of `extractImages` (source lines 161–169): the
structured-data `image`, pushed whole if an array, as a singleton if a truthy
scalar. -/
def structuredImages (sd : Option StructuredData) : List String :=
  match sd with
  | none => []
  | some s =>
    if imageTruthy s.image then
      match s.image with
      | some (.one str) => [str]
      | some (.many l) => l
      | none => []
    else []

/-- `img.getAttribute("src") || img.getAttribute("content")` (source
line 174), with `""` standing for null. -/
def elemSrc (e : ImgElem) : String :=
  if e.src ≠ "" then e.src else e.content

/-- The `imgElements.forEach` loop of `extractImages` (source lines 172–178):
the source of each element is appended iff truthy and not already in the list
(exact string equality). -/
def addImgs (acc : List String) : List ImgElem → List String
  | [] => acc
  | e :: rest =>
    if elemSrc e ≠ "" ∧ elemSrc e ∉ acc then addImgs (acc ++ [elemSrc e]) rest
    else addImgs acc rest

/-- `extractImages(structuredData, document)` (source lines 160–181). -/
def extractImages (sd : Option StructuredData) (doc : DomDoc) : List String :=
  addImgs (structuredImages sd) doc.imgElems

/-- A value of the assembled recipe object.  The two record builders are
modelled as association lists `List (String × JValue)` so that the set and
order of keys — the shape of the object — is part of the model. -/
inductive JValue
  | str (s : String)
  | strList (l : List String)
  | bool (b : Bool)
  | num (q : ℚ)
deriving DecidableEq

/-- An assembled recipe object. -/
abbrev MelaRecord := List (String × JValue)

/-- An entry of the `images` array handed to `convertImagesToBase64`: a
string, or a value of any other runtime type. -/
inductive ImgRef
  | str (s : String)
  | nonString

/-- The strip of `/^data:image\/[a-zA-Z0-9.+-]+;base64,/` (source line 470):
after the literal `data:image/`, the class run is maximal (the class excludes
`;`, so it is everything up to the first `;`), must be nonempty, and must be
followed by the literal `;base64,`. -/
def imgDataUrlStrip (s : String) : String :=
  let cs := s.toList
  if ("data:image/").toList.isPrefixOf cs then
    let rest := cs.drop 11
    let run := rest.takeWhile fun c => c.isAlpha || c.isDigit || c == '.' || c == '+' || c == '-'
    let after := rest.drop run.length
    if run ≠ [] ∧ (";base64,").toList.isPrefixOf after then
      String.mk (after.drop 8)
    else s
  else s

/-- `.replace(/\//g, "\\/")` (source line 471): every `/` becomes `\/`. -/
def escapeSlashes (s : String) : String :=
  String.mk (s.toList.flatMap fun c => if c = '/' then ['\\', c] else [c])

/-- The post-processing of one successfully downloaded image (source lines
469–471). -/
def processImage (s : String) : String :=
  escapeSlashes (imgDataUrlStrip s)

/-- The `for (const url of imageUrls)` loop of `convertImagesToBase64`
(source lines 458–475), with the accumulating `base64Images` array.  `dl` is
the awaited `downloadImageAsBase64` result for a URL (none = null); the JS
`if (base64Image)` guard also rejects `""`. -/
def convertLoop (dl : String → Option String) : List ImgRef → List String → List String
  | [], acc => acc
  | .nonString :: rest, acc => convertLoop dl rest acc
  | .str url :: rest, acc =>
    if url ≠ "" ∧ (strStartsWith url ("http://") ∨ strStartsWith url ("https://")) then
      match dl url with
      | some b =>
        if b ≠ "" then convertLoop dl rest (acc ++ [processImage b])
        else convertLoop dl rest acc
      | none => convertLoop dl rest acc
    else convertLoop dl rest acc

/-- `convertImagesToBase64(imageUrls)` (source lines 453–477) over a list
input (the non-array early return is outside the claim, which quantifies over
input lists). -/
def convertImagesToBase64 (dl : String → Option String) (imageUrls : List ImgRef) : List String :=
  convertLoop dl imageUrls []

/-- What one entry contributes to the output of `convertImagesToBase64`:
nothing unless it is a nonempty string with an http/https scheme whose
download succeeds. -/
def materializeOne (dl : String → Option String) : ImgRef → Option String
  | .nonString => none
  | .str url =>
    if url ≠ "" ∧ (strStartsWith url ("http://") ∨ strStartsWith url ("https://")) then
      match dl url with
      | some b => if b ≠ "" then some (processImage b) else none
      | none => none
    else none

/-- The extraction results of `parseHTMLRecipe` that no claim under study
analyses (description, categories, yield, ingredients, instructions, notes,
nutrition, author/link).  They are carried opaquely into the assembled
record. -/
structure OtherHtmlFields where
  text : String
  categories : List String
  yieldText : String
  ingredients : String
  instructions : String
  notes : String
  nutrition : String
  link : String

/-- `parseHTMLRecipe(filePath)` (source lines 41–101), abstracted over the
file system and DOM: `sd` is the parsed JSON-LD block (none when absent or
unparseable), `doc` the parsed document, `rid` the `generateId` result,
`dl` the image-download collaborator and `now` the value of
`Date.now() / 1000`.  The returned object is the one after line 94 replaced
`images` with the materialized list. -/
def parseHTMLRecipe (sd : Option StructuredData) (doc : DomDoc)
    (other : OtherHtmlFields) (rid : String) (dl : String → Option String)
    (now : ℚ) : MelaRecord :=
  let prepMins := parseTimeToMinutes (some (extractPrepTime sd doc))
  let cookMins := parseTimeToMinutes (some (extractCookTime sd doc))
  let otherMins := 0
  let totalMins := prepMins + cookMins + otherMins
  [("id", .str rid),
   ("title", .str (toProperCase (extractTitle sd doc))),
   ("text", .str other.text),
   ("images", .strList (convertImagesToBase64 dl ((extractImages sd doc).map ImgRef.str))),
   ("categories", .strList other.categories),
   ("yield", .str other.yieldText),
   ("prepTime", .str (formatMinutesToHM prepMins)),
   ("cookTime", .str (formatMinutesToHM cookMins)),
   ("totalTime", .str (formatMinutesToHM totalMins)),
   ("ingredients", .str other.ingredients),
   ("instructions", .str other.instructions),
   ("notes", .str other.notes),
   ("nutrition", .str other.nutrition),
   ("link", .str other.link),
   ("favorite", .bool false),
   ("wantToCook", .bool false),
   ("date", .num now)]

/-- The flat-format (YML) document as parsed by the yaml library, restricted
to string-or-absent values (the only shapes the claims exercise). -/
structure YmlData where
  name : Option String
  prep_time : Option String
  cook_time : Option String
  other_time : Option String
  notes : Option String
  image : Option String
  tags : Option String
  servings : Option String
  ingredients : Option String
  directions : Option String
  nutritional_info : Option String
  source : Option String
  favorite : Option String
  on_favorites : Option String
  created : Option String

/-- `parseYMLTags(tags)` (source lines 314–323). -/
def parseYMLTags (tags : Option String) : List String :=
  match tags with
  | none => []
  | some s =>
    if s = "" then []
    else ((s.splitOn ("\n")).filter fun t => t.trim ≠ "").map String.trim

/-- `formatYMLIngredients(ingredients)` (source lines 325–334). -/
def formatYMLIngredients (ingredients : Option String) : String :=
  match ingredients with
  | none => ""
  | some s =>
    if s = "" then ""
    else String.intercalate ("\n") ((s.splitOn ("\n")).filter fun l => l.trim ≠ "")

/-- `formatYMLDirections(directions)` (source lines 336–345). -/
def formatYMLDirections (directions : Option String) : String :=
  match directions with
  | none => ""
  | some s =>
    if s = "" then ""
    else String.intercalate ("\n\n") ((s.splitOn ("\n")).filter fun l => l.trim ≠ "")

/-- `parseYMLRecipe(filePath)` (source lines 104–141), abstracted over the
file system: `d` is the parsed YAML data, `rid` the `generateId` result and
`now` the value of `Date.now() / 1000`. -/
def parseYMLRecipe (d : YmlData) (rid : String) (now : ℚ) : MelaRecord :=
  let prepMins := parseTimeToMinutes d.prep_time
  let cookMins := parseTimeToMinutes d.cook_time
  let otherMins := parseTimeToMinutes d.other_time
  let totalMins := prepMins + cookMins + otherMins
  [("id", .str rid),
   ("title", .str (toProperCase (jsOrS d.name))),
   ("text", .str (jsOrS d.notes)),
   ("images", .strList (if jsTruthyS d.image then [d.image.getD ("")] else [])),
   ("categories", .strList (parseYMLTags d.tags)),
   ("yield", .str (jsOrS d.servings)),
   ("prepTime", .str (formatMinutesToHM prepMins)),
   ("cookTime", .str (formatMinutesToHM cookMins)),
   ("otherTime", .str (formatMinutesToHM otherMins)),
   ("totalTime", .str (formatMinutesToHM totalMins)),
   ("ingredients", .str (formatYMLIngredients d.ingredients)),
   ("instructions", .str (formatYMLDirections d.directions)),
   ("notes", .str (jsOrS d.notes)),
   ("nutrition", .str (jsOrS d.nutritional_info)),
   ("link", .str (jsOrS d.source)),
   ("favorite", .bool (d.favorite == some ("yes") || d.on_favorites == some ("yes"))),
   ("wantToCook", .bool false),
   ("date", .num (jsOrQ (parseYMLDate d.created) now))]

/-- `MAX_REDIRECTS` (source line 373). -/
def MAX_REDIRECTS : Nat := 5

/-- `TIMEOUT_MS` (source line 374). -/
def TIMEOUT_MS : Nat := 15000

/-- The outcome the transport yields for one `protocol.get(url, ...)` call:
a response (status, `location` and `content-type` headers, concatenated body
bytes), a network/protocol error (the `request.on("error")` path), or the
idle timeout (the `request.setTimeout` path). -/
inductive FetchOutcome
  | resp (status : Nat) (location : Option String) (contentType : Option String)
      (body : List Nat)
  | netError
  | timeout

/-- The base64 alphabet. -/
def b64At (n : Nat) : Char :=
  ("ABCDEFGHIJKLMNOPQRSTUVWXYZabcdefghijklmnopqrstuvwxyz0123456789+/").toList.getD n 'A'

/-- Standard base64 of a byte list (`buffer.toString("base64")`); each input
is reduced mod 256, the byte range. -/
def base64Go : List Nat → List Char
  | [] => []
  | [a0] =>
    let a := a0 % 256
    [b64At (a / 4), b64At (a % 4 * 16), '=', '=']
  | [a0, b0] =>
    let a := a0 % 256
    let b := b0 % 256
    [b64At (a / 4), b64At (a % 4 * 16 + b / 16), b64At (b % 16 * 4), '=']
  | a0 :: b0 :: c0 :: rest =>
    let a := a0 % 256
    let b := b0 % 256
    let c := c0 % 256
    b64At (a / 4) :: b64At (a % 4 * 16 + b / 16) :: b64At (b % 16 * 4 + c / 64) ::
      b64At (c % 64) :: base64Go rest

/-- `buffer.toString("base64")` on the concatenated response body. -/
def base64Encode (body : List Nat) : String :=
  String.mk (base64Go body)

/-- `url.replace(/^(https?:\/\/[^\/]+).*/, "$1")` (source line 392): when the
anchored pattern matches, the matched span (scheme, host, then `.*`, which
stops at the first line terminator) is replaced by the captured scheme+host;
text after the span survives.  No match (no scheme, or empty host) leaves the
URL unchanged. -/
def computeOrigin (url : String) : String :=
  let cs := url.toList
  let parsed : Option (List Char × List Char) :=
    if ("https://").toList.isPrefixOf cs then some (("https://").toList, cs.drop 8)
    else if ("http://").toList.isPrefixOf cs then some (("http://").toList, cs.drop 7)
    else none
  match parsed with
  | none => url
  | some (scheme, rest) =>
    let host := rest.takeWhile fun c => c ≠ '/'
    if host = [] then url
    else
      String.mk (scheme ++ host ++
        (rest.drop host.length).dropWhile fun c => c ≠ '\n' ∧ c ≠ '\r')

/-- The redirect target (source lines 390–393): an absolute `location`
(anything starting with `http`) is followed as is; otherwise it is appended
to the origin of the current URL. -/
def resolveRedirect (url location : String) : String :=
  if strStartsWith location ("http") then location else computeOrigin url ++ location

/-- The recursion of `downloadImageAsBase64` (source lines 372–451), with the
remaining redirect budget `MAX_REDIRECTS - redirectCount` as the structural
fuel: a 3xx response with a truthy `location` header is followed while budget
remains (JS: `redirectCount < MAX_REDIRECTS`), else resolves null.  Then:
non-200 status → null; `content-type` header (or `""`) not starting with
`image/` → null; otherwise the data URL of the base64-encoded body.  A
network error or the idle timeout resolves null.  A falsy (empty) or
non-string URL resolves null up front. -/
def dlGo (fetch : String → FetchOutcome) : Nat → String → Option String
  | budget, url =>
    if url = "" then none
    else
      match fetch url with
      | .netError => none
      | .timeout => none
      | .resp status location contentType body =>
        if 300 ≤ status ∧ status < 400 ∧ jsTruthyS location then
          match budget with
          | b + 1 => dlGo fetch b (resolveRedirect url (location.getD ("")))
          | 0 => none
        else if status ≠ 200 then none
        else if ¬ strStartsWith (contentType.getD ("")) ("image/") then none
        else some ("data:" ++ contentType.getD ("") ++ ";base64," ++ base64Encode body)

/-- `downloadImageAsBase64(url, redirectCount)` over the transport oracle
`fetch`. -/
def downloadImageAsBase64 (fetch : String → FetchOutcome) (url : String)
    (redirectCount : Nat) : Option String :=
  dlGo fetch (MAX_REDIRECTS - redirectCount) url

/-- The per-file loop of `convertHTMLFiles` (source lines 518–529): `parse`
is `parseHTMLRecipe` (none when the per-file try/catch swallowed an error and
returned null).  A parsed recipe reaches
`fs.writeFileSync(outputPath, json)` — but no binding named `json` exists
anywhere in the program, so that statement raises a `ReferenceError` which no
handler inside the function catches; the loop never pushes the recipe nor
reaches the next file. -/
def convertHTMLFilesGo (parse : String → Option MelaRecord) :
    List String → List MelaRecord → Except String (List MelaRecord)
  | [], converted => .ok converted
  | file :: rest, converted =>
    match parse file with
    | none => convertHTMLFilesGo parse rest converted
    | some _ => .error ("ReferenceError: json is not defined")

/-- `convertHTMLFiles()` (source lines 506–532) over the discovered file
list. -/
def convertHTMLFiles (parse : String → Option MelaRecord) (files : List String) :
    Except String (List MelaRecord) :=
  convertHTMLFilesGo parse files []

/-- The per-file loop of `convertYMLFiles` (source lines 546–566): a file
whose parse returned null is skipped; a parsed recipe has its images
materialized (`materialize` abstracts lines 553–554), is written out and
pushed. -/
def convertYMLFilesGo (parse : String → Option MelaRecord)
    (materialize : MelaRecord → MelaRecord) :
    List String → List MelaRecord → List MelaRecord
  | [], converted => converted
  | file :: rest, converted =>
    match parse file with
    | none => convertYMLFilesGo parse materialize rest converted
    | some recipe => convertYMLFilesGo parse materialize rest (converted ++ [materialize recipe])

/-- `convertYMLFiles()` (source lines 534–574) over the discovered file list,
up to the archive side effects. -/
def convertYMLFiles (parse : String → Option MelaRecord)
    (materialize : MelaRecord → MelaRecord) (files : List String) : List MelaRecord :=
  convertYMLFilesGo parse materialize files []

/-- A download oracle for concrete evaluations: one URL succeeds with a
PNG data URL whose base64 body contains a slash. -/
def demoDl : String → Option String := fun u =>
  if u = "http://ok" then some ("data:image/png;base64,AB/CD") else none

/-- A parse oracle for a directory with one well-formed and one malformed
HTML file. -/
def demoHTMLParse : String → Option MelaRecord := fun file =>
  if file = "good.html" then some [("id", JValue.str ("good"))] else none

/-- A parse oracle for a directory with one well-formed and one malformed
YML file. -/
def demoYMLParse : String → Option MelaRecord := fun file =>
  if file = "good.yml" then some [("id", JValue.str ("goodY"))] else none

/-- A transport that answers every URL with a redirect to `http://r`. -/
def alwaysRedirect : String → FetchOutcome := fun _ =>
  .resp 301 (some ("http://r")) none []

/-- A transport that answers 404. -/
def demo404 : String → FetchOutcome := fun _ =>
  .resp 404 none (some ("text/plain")) []

/-- A transport that answers 200 with a non-image content type. -/
def demoHtmlResp : String → FetchOutcome := fun _ =>
  .resp 200 none (some ("text/html")) []

/-- A transport that answers 200 with `image/png` and body bytes 1, 2, 3. -/
def demoPng : String → FetchOutcome := fun _ =>
  .resp 200 none (some ("image/png")) [1, 2, 3]

example : parseTimeToMinutes (some ("30 minutes")) = 30 := by decide
example : parseTimeToMinutes (some ("1h")) = 0 := by decide
example : parseTimeToMinutes (some ("about 12  Minutes or so")) = 12 := by decide
example : parseYMLDate (some ("CookBook App (1750853689812)")) =
    some ((1750853689812 : ℚ) / 1000) := by
  have h : parenScan ("CookBook App (1750853689812)").toList =
      some 1750853689812 := by decide
  have hne : ("CookBook App (1750853689812)" : String) ≠ "" := by decide
  simp only [parseYMLDate]
  rw [if_neg hne, h]
  norm_num
example : formatDuration ("PT1H30M") = "1h 30m" := by decide
example : formatDuration ("PT45M") = "45m" := by decide
example : formatDuration ("PT") = "PT" := by decide
example : formatDuration ("1 hour") = "1 hour" := by decide
example : toProperCase ("HELLO WORLD") = "Hello world" := by decide
example : formatMinutesToHM 90 = "1h 30m" := by decide

theorem convertLoop_eq_filterMap (dl : String → Option String) :
    ∀ (l : List ImgRef) (acc : List String),
      convertLoop dl l acc = acc ++ l.filterMap (materializeOne dl) := by
  intro l
  induction l with
  | nil => intro acc; simp [convertLoop]
  | cons r rest ih =>
    intro acc
    cases r with
    | nonString => simp [convertLoop, materializeOne, ih]
    | str url =>
      by_cases hq : url ≠ "" ∧ (strStartsWith url ("http://") ∨ strStartsWith url ("https://"))
      · cases hdl : dl url with
        | some b =>
          by_cases hb : b = ""
          · simp [convertLoop, materializeOne, hq, hdl, hb, ih]
          · simp [convertLoop, materializeOne, hq, hdl, hb, ih]
        | none => simp [convertLoop, materializeOne, hq, hdl, ih]
      · simp [convertLoop, materializeOne, hq, ih]

/-- C1: for every record produced by either extraction path, the `totalTime`
field is `formatMinutesToHM` of `prepMinutes + cookMinutes + otherMinutes`,
each summand obtained by running the extracted time string through the
free-text minute scanner `parseTimeToMinutes`, with `otherMinutes = 0` on the
HTML path. -/
theorem totalTime_is_sum_of_scanned_minutes :
    ∀ (sd : Option StructuredData) (doc : DomDoc) (other : OtherHtmlFields)
      (rid : String) (dl : String → Option String) (now : ℚ)
      (d : YmlData) (rid2 : String) (now2 : ℚ),
      List.lookup ("totalTime") (parseHTMLRecipe sd doc other rid dl now) =
        some (JValue.str (formatMinutesToHM
          (parseTimeToMinutes (some (extractPrepTime sd doc)) +
           parseTimeToMinutes (some (extractCookTime sd doc)) + 0))) ∧
      List.lookup ("totalTime") (parseYMLRecipe d rid2 now2) =
        some (JValue.str (formatMinutesToHM
          (parseTimeToMinutes d.prep_time + parseTimeToMinutes d.cook_time +
           parseTimeToMinutes d.other_time))) := by
  intro sd doc other rid dl now d rid2 now2
  exact ⟨rfl, rfl⟩

/-- C8: `formatMinutesToHM` maps 0 to the empty string, a count below 60 to
`"<m>m"`, a count of 60 or more to `"<h>h"` when the remainder mod 60 is zero
and `"<h>h <m>m"` otherwise; in particular 0, 45, 60, 90 map to `""`,
`"45m"`, `"1h"`, `"1h 30m"`. -/
theorem formatMinutesToHM_cases :
    formatMinutesToHM 0 = "" ∧ formatMinutesToHM 45 = "45m" ∧
    formatMinutesToHM 60 = "1h" ∧ formatMinutesToHM 90 = "1h 30m" ∧
    ∀ m : ℕ,
      (m ≠ 0 → m < 60 → formatMinutesToHM m = toString m ++ "m") ∧
      (60 ≤ m → m % 60 = 0 → formatMinutesToHM m = toString (m / 60) ++ "h") ∧
      (60 ≤ m → m % 60 ≠ 0 →
        formatMinutesToHM m =
          toString (m / 60) ++ "h " ++ toString (m % 60) ++ "m") := by
  refine ⟨by decide, by decide, by decide, by decide, ?_⟩
  intro m
  refine ⟨?_, ?_, ?_⟩
  · intro h1 h2
    simp [formatMinutesToHM, h1, h2]
  · intro h1 h2
    have h3 : ¬ m = 0 := by omega
    have h4 : ¬ m < 60 := by omega
    simp [formatMinutesToHM, h2, h3, h4]
  · intro h1 h2
    have h3 : ¬ m = 0 := by omega
    have h4 : ¬ m < 60 := by omega
    simp [formatMinutesToHM, h2, h3, h4]

/-- C10: every record built by the YML extractor carries an extra `otherTime`
string field (the formatted `other_time` minutes) that records of the HTML
extractor never carry; the two paths produce objects of different shapes. -/
theorem yml_record_has_otherTime_html_record_does_not :
    ∀ (sd : Option StructuredData) (doc : DomDoc) (other : OtherHtmlFields)
      (rid : String) (dl : String → Option String) (now : ℚ)
      (d : YmlData) (rid2 : String) (now2 : ℚ),
      (parseYMLRecipe d rid2 now2).map Prod.fst =
        ["id", "title", "text", "images", "categories", "yield", "prepTime",
         "cookTime", "otherTime", "totalTime", "ingredients", "instructions",
         "notes", "nutrition", "link", "favorite", "wantToCook", "date"] ∧
      (parseHTMLRecipe sd doc other rid dl now).map Prod.fst =
        ["id", "title", "text", "images", "categories", "yield", "prepTime",
         "cookTime", "totalTime", "ingredients", "instructions",
         "notes", "nutrition", "link", "favorite", "wantToCook", "date"] ∧
      ("otherTime" ∈ (parseYMLRecipe d rid2 now2).map Prod.fst) ∧
      ("otherTime" ∉ (parseHTMLRecipe sd doc other rid dl now).map Prod.fst) ∧
      List.lookup ("otherTime") (parseYMLRecipe d rid2 now2) =
        some (JValue.str (formatMinutesToHM (parseTimeToMinutes d.other_time))) := by
  intro sd doc other rid dl now d rid2 now2
  have hy : (parseYMLRecipe d rid2 now2).map Prod.fst =
      ["id", "title", "text", "images", "categories", "yield", "prepTime",
       "cookTime", "otherTime", "totalTime", "ingredients", "instructions",
       "notes", "nutrition", "link", "favorite", "wantToCook", "date"] := rfl
  have hh : (parseHTMLRecipe sd doc other rid dl now).map Prod.fst =
      ["id", "title", "text", "images", "categories", "yield", "prepTime",
       "cookTime", "totalTime", "ingredients", "instructions",
       "notes", "nutrition", "link", "favorite", "wantToCook", "date"] := rfl
  refine ⟨hy, hh, ?_, ?_, rfl⟩
  · rw [hy]; decide
  · rw [hh]; decide

/-- C4 counterexample: decoding `created = "App (1750853689812)"` yields
1750853689812 / 1000 = 1750853689.812, which is not the integer-seconds value
1750853689 the claim states. -/
theorem parseYMLDate_fractional_counterexample :
    parseYMLDate (some ("App (1750853689812)")) =
      some ((1750853689812 : ℚ) / 1000) ∧
    ((1750853689812 : ℚ) / 1000 ≠ (1750853689 : ℚ)) ∧
    ((1750853689812 : ℚ) / 1000 = 1750853689 + 812 / 1000) := by
  have h : parenScan ("App (1750853689812)").toList = some 1750853689812 := by decide
  have hne : ("App (1750853689812)" : String) ≠ "" := by decide
  refine ⟨?_, by norm_num, by norm_num⟩
  simp only [parseYMLDate]
  rw [if_neg hne, h]
  norm_num

/-- C4 amended: the `created` decode scans for a parenthesized digit run,
interprets it as milliseconds and divides by 1000 exactly (no truncation to
integer seconds: the example decodes to 1750853689.812), and yields nothing —
so the caller falls back to the current time — when the field is absent or
unparseable. -/
theorem parseYMLDate_millis_div_1000 :
    parseYMLDate none = none ∧
    parseYMLDate (some ("")) = none ∧
    parseYMLDate (some ("no timestamp here")) = none ∧
    (∀ (s : String) (n : ℕ), parenScan s.toList = some n →
      parseYMLDate (some s) = some ((n : ℚ) / 1000)) ∧
    (∀ now : ℚ, jsOrQ (parseYMLDate none) now = now ∧ jsOrQ (some 0) now = now) ∧
    parseYMLDate (some ("App (1750853689812)")) =
      some (1750853689 + 812 / 1000 : ℚ) := by
  refine ⟨rfl, rfl, by decide, ?_, ?_, ?_⟩
  · intro s n h
    have hs : s ≠ "" := by
      intro he
      rw [he] at h
      simp [parenScan] at h
    simp only [parseYMLDate]
    rw [if_neg hs, h]
  · intro now
    exact ⟨rfl, by simp [jsOrQ]⟩
  · have h : parenScan ("App (1750853689812)").toList = some 1750853689812 := by decide
    have hne : ("App (1750853689812)" : String) ≠ "" := by decide
    simp only [parseYMLDate]
    rw [if_neg hne, h]
    norm_num

/-- C5 counterexample: when no component of the machine format matches,
`formatDuration` does not return 0 — it falls through and returns the input
string unchanged (`"PT"` stays `"PT"`, and so does `"PT0H0M"`, whose two
parsed components are both zero). -/
theorem formatDuration_no_component_counterexample :
    formatDuration ("PT") = "PT" ∧
    formatDuration ("PT0H0M") = "PT0H0M" ∧
    ("PT" : String) ≠ "0" ∧ ("PT" : String) ≠ "" := by
  exact ⟨by decide, by decide, by decide, by decide⟩

/-- C5 amended: for a recognized `PT[<h>H][<m>M]` code `formatDuration`
returns `"<h>h <m>m"` / `"<h>h"` / `"<m>m"` as both / only hours / only
minutes are nonzero (absent components count 0); when NO component matches
(both zero) it returns the input string unchanged, not 0; and every input not
starting with `PT` is returned unchanged. -/
theorem formatDuration_spec :
    formatDuration ("PT1H30M") = "1h 30m" ∧
    formatDuration ("PT2H") = "2h" ∧
    formatDuration ("PT45M") = "45m" ∧
    formatDuration ("1 hour") = "1 hour" ∧
    ∀ s : String,
      (strStartsWith s ("PT") = false → formatDuration s = s) ∧
      (strStartsWith s ("PT") = true → (ptParse s).1 = 0 → (ptParse s).2 = 0 →
        formatDuration s = s) ∧
      (strStartsWith s ("PT") = true → (ptParse s).1 ≠ 0 → (ptParse s).2 ≠ 0 →
        formatDuration s = toString (ptParse s).1 ++ "h " ++ toString (ptParse s).2 ++ "m") ∧
      (strStartsWith s ("PT") = true → (ptParse s).1 ≠ 0 → (ptParse s).2 = 0 →
        formatDuration s = toString (ptParse s).1 ++ "h") ∧
      (strStartsWith s ("PT") = true → (ptParse s).1 = 0 → (ptParse s).2 ≠ 0 →
        formatDuration s = toString (ptParse s).2 ++ "m") := by
  refine ⟨by decide, by decide, by decide, by decide, ?_⟩
  intro s
  refine ⟨?_, ?_, ?_, ?_, ?_⟩
  · intro h
    simp [formatDuration, h]
  · intro h h1 h2
    simp [formatDuration, h, h1, h2]
  · intro h h1 h2
    simp [formatDuration, h, h1, h2]
  · intro h h1 h2
    simp [formatDuration, h, h1, h2]
  · intro h h1 h2
    simp [formatDuration, h, h1, h2]

/-- C6: under the only behaviour the program has (its constructor takes no
configuration, and no `titleCaseMode` option exists anywhere), a converted
record title is whole-string proper-cased, NOT per-word title-cased:
`"HELLO WORLD"` becomes `"Hello world"`, not the documented default
`"Hello World"`. -/
theorem default_title_is_proper_cased_not_title_cased :
    toProperCase ("HELLO WORLD") = "Hello world" ∧
    ("Hello world" : String) ≠ "Hello World" ∧
    toProperCase ("Apple-Brined Hickory-Smoked Turkey") =
      "Apple-brined hickory-smoked turkey" ∧
    List.lookup ("title")
      (parseHTMLRecipe (some ⟨some ("HELLO WORLD"), none, none, none⟩)
        ⟨none, none, none, []⟩ ⟨"", [], "", "", "", "", "", ""⟩ "r1"
        (fun _ => none) 0) = some (JValue.str ("Hello world")) ∧
    List.lookup ("title")
      (parseYMLRecipe
        ⟨some ("HELLO WORLD"), none, none, none, none, none, none, none, none,
         none, none, none, none, none, none⟩ "r2" 0) =
      some (JValue.str ("Hello world")) := by
  exact ⟨by decide, by decide, by decide, by decide, by decide⟩

/-- C3: a batch run of the HTML path over a directory holding one well-formed
and one malformed file does NOT produce one record and continue — the write
of the first successfully parsed record evaluates the undeclared identifier
`json` and aborts with a ReferenceError (whatever the file order, and even
though the malformed file alone is skipped as the claim says).  The YML path
behaves as the claim states: exactly one record. -/
theorem html_batch_aborts_on_first_well_formed_file :
    convertHTMLFiles demoHTMLParse ["good.html", "bad.html"] =
      Except.error ("ReferenceError: json is not defined") ∧
    convertHTMLFiles demoHTMLParse ["bad.html", "good.html"] =
      Except.error ("ReferenceError: json is not defined") ∧
    convertHTMLFiles demoHTMLParse ["bad.html"] = Except.ok [] ∧
    convertYMLFiles demoYMLParse (fun r => r) ["good.yml", "bad.yml"] =
      [[("id", JValue.str ("goodY"))]] ∧
    (convertYMLFiles demoYMLParse (fun r => r) ["good.yml", "bad.yml"]).length = 1 := by
  exact ⟨rfl, rfl, rfl, rfl, rfl⟩

/-- C2: `convertImagesToBase64` keeps exactly the successfully materialized
entries, in input order (it equals a `filterMap`); entries that are not
strings or lack an http/https scheme contribute nothing; the output is never
longer than the input.  The concrete run shows one success (with the data-URL
prefix stripped and the slash escaped) among four drops. -/
theorem convertImagesToBase64_output_spec :
    ∀ (dl : String → Option String) (l : List ImgRef),
      convertImagesToBase64 dl l = l.filterMap (materializeOne dl) ∧
      (convertImagesToBase64 dl l).length ≤ l.length ∧
      (∀ u : String,
        ¬ (strStartsWith u ("http://") = true ∨ strStartsWith u ("https://") = true) →
        materializeOne dl (ImgRef.str u) = none) ∧
      materializeOne dl ImgRef.nonString = none ∧
      convertImagesToBase64 demoDl
        [ImgRef.str ("http://ok"), ImgRef.nonString, ImgRef.str ("ftp://x"),
         ImgRef.str ("data:image/png;base64,AAA"), ImgRef.str ("http://missing")] =
        ["AB\\/CD"] := by
  intro dl l
  have he := convertLoop_eq_filterMap dl l []
  refine ⟨by simpa [convertImagesToBase64] using he, ?_, ?_, rfl, by decide⟩
  · rw [show convertImagesToBase64 dl l = l.filterMap (materializeOne dl) from by
      simpa [convertImagesToBase64] using he]
    exact List.length_filterMap_le _ _
  · intro u h
    push_neg at h
    simp [materializeOne, h.1, h.2]

theorem addImgs_spec :
    ∀ (l : List ImgElem) (acc : List String),
      ∃ extra : List String,
        addImgs acc l = acc ++ extra ∧
        extra.Nodup ∧
        (∀ s ∈ extra, s ∉ acc) ∧
        (∀ s ∈ extra, s ≠ "" ∧ ∃ e ∈ l, elemSrc e = s) ∧
        (∀ s, s ∈ addImgs acc l ↔ s ∈ acc ∨ (s ≠ "" ∧ ∃ e ∈ l, elemSrc e = s)) := by
  intro l
  induction l with
  | nil =>
    intro acc
    exact ⟨[], by simp [addImgs], by simp, by simp, by simp, by simp [addImgs]⟩
  | cons e rest ih =>
    intro acc
    by_cases hc : elemSrc e ≠ "" ∧ elemSrc e ∉ acc
    · obtain ⟨extra, h1, h2, h3, h4, h5⟩ := ih (acc ++ [elemSrc e])
      have hstep : addImgs acc (e :: rest) = addImgs (acc ++ [elemSrc e]) rest := by
        simp [addImgs, hc]
      refine ⟨elemSrc e :: extra, ?_, ?_, ?_, ?_, ?_⟩
      · rw [hstep, h1]
        simp
      · rw [List.nodup_cons]
        exact ⟨fun hmem => (h3 _ hmem) (by simp), h2⟩
      · intro s hs
        rcases List.mem_cons.mp hs with h' | h'
        · rw [h']
          exact hc.2
        · intro hin
          exact (h3 _ h') (List.mem_append.mpr (Or.inl hin))
      · intro s hs
        rcases List.mem_cons.mp hs with h' | h'
        · subst h'
          exact ⟨hc.1, e, List.mem_cons_self e rest, rfl⟩
        · obtain ⟨hne, e', he', hsrc⟩ := h4 s h'
          exact ⟨hne, e', List.mem_cons_of_mem e he', hsrc⟩
      · intro s
        rw [hstep, h5 s]
        constructor
        · rintro (hmem | ⟨hne, e', he', hsrc⟩)
          · rcases List.mem_append.mp hmem with ha | hb
            · exact Or.inl ha
            · have hse : s = elemSrc e := by simpa using hb
              refine Or.inr ⟨?_, e, List.mem_cons_self e rest, hse.symm⟩
              rw [hse]
              exact hc.1
          · exact Or.inr ⟨hne, e', List.mem_cons_of_mem e he', hsrc⟩
        · rintro (ha | ⟨hne, e', he', hsrc⟩)
          · exact Or.inl (List.mem_append.mpr (Or.inl ha))
          · rcases List.mem_cons.mp he' with he1 | he2
            · subst he1
              exact Or.inl (List.mem_append.mpr (Or.inr (by simp [hsrc])))
            · exact Or.inr ⟨hne, e', he2, hsrc⟩
    · obtain ⟨extra, h1, h2, h3, h4, h5⟩ := ih acc
      have hstep : addImgs acc (e :: rest) = addImgs acc rest := by
        simp [addImgs, hc]
      have hd : elemSrc e = "" ∨ elemSrc e ∈ acc := by
        by_contra hh
        push_neg at hh
        exact hc ⟨hh.1, hh.2⟩
      refine ⟨extra, by rw [hstep, h1], h2, h3, ?_, ?_⟩
      · intro s hs
        obtain ⟨hne, e', he', hsrc⟩ := h4 s hs
        exact ⟨hne, e', List.mem_cons_of_mem e he', hsrc⟩
      · intro s
        rw [hstep, h5 s]
        constructor
        · rintro (ha | ⟨hne, e', he', hsrc⟩)
          · exact Or.inl ha
          · exact Or.inr ⟨hne, e', List.mem_cons_of_mem e he', hsrc⟩
        · rintro (ha | ⟨hne, e', he', hsrc⟩)
          · exact Or.inl ha
          · rcases List.mem_cons.mp he' with he1 | he2
            · subst he1
              rcases hd with hd1 | hd2
              · exact absurd (hsrc.symm.trans hd1) hne
              · exact Or.inl (hsrc ▸ hd2)
            · exact Or.inr ⟨hne, e', he2, hsrc⟩

/-- C9: the image list of the markup extractor is a union, not a first-match
fallback — the structured-data images (order preserved) are a prefix of the
result, and every truthy element source is appended after them exactly when
it is not already present by exact string equality (the appended part has no
duplicates and no member of the structured list).  The concrete run collects
both sources with deduplication. -/
theorem extractImages_is_union :
    ∀ (sd : Option StructuredData) (doc : DomDoc),
      (∃ extra : List String,
        extractImages sd doc = structuredImages sd ++ extra ∧
        extra.Nodup ∧
        (∀ s ∈ extra, s ∉ structuredImages sd) ∧
        (∀ s ∈ extra, s ≠ "" ∧ ∃ e ∈ doc.imgElems, elemSrc e = s) ∧
        (∀ s, s ∈ extractImages sd doc ↔
          s ∈ structuredImages sd ∨ (s ≠ "" ∧ ∃ e ∈ doc.imgElems, elemSrc e = s))) ∧
      extractImages (some ⟨none, some (ImageVal.many ["a", "b"]), none, none⟩)
        ⟨none, none, none, [⟨"b", ""⟩, ⟨"c", ""⟩, ⟨"", "a"⟩]⟩ = ["a", "b", "c"] := by
  intro sd doc
  constructor
  · obtain ⟨extra, h1, h2, h3, h4, h5⟩ := addImgs_spec doc.imgElems (structuredImages sd)
    exact ⟨extra, h1, h2, h3, h4, h5⟩
  · decide

/-- C7: one image fetch resolves to no value — so that image is dropped and
the batch continues — on a non-success status (when not a followable
redirect), on a content type not starting with `image/`, once the redirect
budget of 5 is exhausted, and on a network error or the fixed 15-second
timeout; a 200 `image/png` response yields exactly the base64 payload tagged
`image/png`.  The concrete runs exercise a 404, a `text/html` answer, a
6-redirect chain and a successful PNG download. -/
theorem downloadImage_drop_and_success_cases :
    MAX_REDIRECTS = 5 ∧ TIMEOUT_MS = 15000 ∧
    (∀ (f : String → FetchOutcome) (url : String) (rc : Nat),
      (f url = FetchOutcome.netError → downloadImageAsBase64 f url rc = none) ∧
      (f url = FetchOutcome.timeout → downloadImageAsBase64 f url rc = none) ∧
      (∀ (st : Nat) (loc ct : Option String) (body : List Nat),
        f url = FetchOutcome.resp st loc ct body →
        ¬ (300 ≤ st ∧ st < 400 ∧ jsTruthyS loc = true) → st ≠ 200 →
        downloadImageAsBase64 f url rc = none) ∧
      (∀ (st : Nat) (loc ct : Option String) (body : List Nat),
        f url = FetchOutcome.resp st loc ct body →
        300 ≤ st → st < 400 → jsTruthyS loc = true → MAX_REDIRECTS ≤ rc →
        downloadImageAsBase64 f url rc = none) ∧
      (∀ (loc ct : Option String) (body : List Nat),
        f url = FetchOutcome.resp 200 loc ct body →
        strStartsWith (ct.getD ("")) ("image/") = false →
        downloadImageAsBase64 f url rc = none) ∧
      (∀ (loc : Option String) (body : List Nat),
        url ≠ "" → f url = FetchOutcome.resp 200 loc (some ("image/png")) body →
        downloadImageAsBase64 f url rc =
          some ("data:image/png;base64," ++ base64Encode body))) ∧
    downloadImageAsBase64 alwaysRedirect ("http://r") 0 = none ∧
    downloadImageAsBase64 demo404 ("http://a") 0 = none ∧
    downloadImageAsBase64 demoHtmlResp ("http://h") 0 = none ∧
    downloadImageAsBase64 demoPng ("http://p") 0 =
      some ("data:image/png;base64,AQID") := by
  refine ⟨rfl, rfl, ?_, by decide, by decide, by decide, by decide⟩
  intro f url rc
  by_cases hu : url = ""
  · refine ⟨?_, ?_, ?_, ?_, ?_, ?_⟩ <;> intros <;>
      simp_all [downloadImageAsBase64, dlGo, hu]
  · refine ⟨?_, ?_, ?_, ?_, ?_, ?_⟩
    · intro h
      simp [downloadImageAsBase64, dlGo, hu, h]
    · intro h
      simp [downloadImageAsBase64, dlGo, hu, h]
    · intro st loc ct body h hred h200
      simp [downloadImageAsBase64, dlGo, hu, h, hred, h200]
    · intro st loc ct body h h3 h4 hloc hrc
      have hz : MAX_REDIRECTS - rc = 0 := Nat.sub_eq_zero_of_le hrc
      simp [downloadImageAsBase64, dlGo, hu, h, h3, h4, hloc, hz]
    · intro loc ct body h hct
      simp [downloadImageAsBase64, dlGo, hu, h, hct]
    · intro loc body hne h
      simp [downloadImageAsBase64, dlGo, hu, h]
      decide
